import Mathlib

/-!
Verification of the sprite-atlas tool's core: the shelf packing algorithm
(`src/core/packingAlgorithms.js`), the atlas packer (`src/core/atlasPacker.js`),
the atlas unpacker and metadata validator (`src/core/atlasUnpacker.js`,
`src/core/imageLoader.js`) and the surface utilities (`src/utils/imageUtils.js`).

Pixel surfaces are modelled as total pixel functions with explicit dimensions;
canvas `drawImage` is modelled as a rectangular blit, matching the design's
`Surface { width, height, copyRegion, blit }` abstraction.  JavaScript numbers
that the code only ever adds, compares and maxes are modelled as `Int`.
-/

namespace SpriteAtlas

/-- Drawable pixel surface: dimensions plus a total pixel-lookup function
(models an `HTMLCanvasElement` / decoded `HTMLImageElement`; pixel value 0 is
the transparent pixel a fresh canvas is filled with). -/
structure Surface where
  w : Int
  h : Int
  pix : Int → Int → Int

/-- Sprite input record from `imageLoader.js`: name, loaded image, and the
width/height fields that the loader fills with the image's natural size. -/
structure SpriteInput where
  name : String
  image : Surface
  width : Int
  height : Int

/-- Packed frame record `{ name, x, y, w, h }`. -/
structure Frame where
  name : String
  x : Int
  y : Int
  w : Int
  h : Int
deriving DecidableEq

/-- Packing options `{ padding, maxWidth, maxHeight }` for `shelfPack`. -/
structure PackingOptions where
  padding : Int
  maxWidth : Int
  maxHeight : Int

/-- Result record of a successful `shelfPack` run. -/
structure PackingResult where
  frames : List Frame
  width : Int
  height : Int
  sprites : List SpriteInput

/-- Discriminated `{ success, result?, error? }` value returned by `shelfPack`. -/
inductive ShelfResult where
  | success (result : PackingResult)
  | failure (error : String)

/-- Error string projection of a `ShelfResult` (observation helper). -/
def ShelfResult.errorMsg : ShelfResult → Option String
  | .success _ => none
  | .failure e => some e

/-- Oversized-sprite error message built by `shelfPack` (line 66 of
`packingAlgorithms.js`). -/
def tooLargeMsg (s : SpriteInput) (maxWidth maxHeight : Int) : String :=
  "Sprite \"" ++ s.name ++ "\" (" ++ toString s.width ++ "x" ++ toString s.height ++
    ") is too large for the atlas (max: " ++ toString maxWidth ++ "x" ++ toString maxHeight ++ ")"

/-- Capacity error message built by `shelfPack` (line 81 of
`packingAlgorithms.js`). -/
def tooSmallMsg (maxWidth maxHeight : Int) : String :=
  "Atlas size (" ++ toString maxWidth ++ "x" ++ toString maxHeight ++
    ") is too small to fit all sprites. Try increasing the max size."

/-- Mutable loop state of `shelfPack`: the frames pushed so far and the
`currentX`, `currentY`, `rowHeight`, `atlasWidth` cursors. -/
structure ShelfState where
  frames : List Frame
  currentX : Int
  currentY : Int
  rowHeight : Int
  atlasWidth : Int

/-- One iteration of the `for (const sprite of sortedSprites)` loop of
`shelfPack`: oversize check, row wrap, height check, then placement and
cursor updates. -/
def shelfStep (padding maxWidth maxHeight : Int) (st : ShelfState) (s : SpriteInput) :
    Except String ShelfState :=
  let spriteWidth := s.width + padding
  let spriteHeight := s.height + padding
  if s.width + padding * 2 > maxWidth ∨ s.height + padding * 2 > maxHeight then
    .error (tooLargeMsg s maxWidth maxHeight)
  else
    let st1 :=
      if st.currentX + spriteWidth > maxWidth then
        { st with currentX := padding, currentY := st.currentY + st.rowHeight, rowHeight := 0 }
      else st
    if st1.currentY + spriteHeight > maxHeight then
      .error (tooSmallMsg maxWidth maxHeight)
    else
      .ok { frames := st1.frames ++ [⟨s.name, st1.currentX, st1.currentY, s.width, s.height⟩]
            currentX := st1.currentX + spriteWidth
            currentY := st1.currentY
            rowHeight := max st1.rowHeight spriteHeight
            atlasWidth := max st1.atlasWidth (st1.currentX + s.width + padding) }

/-- The whole placement loop of `shelfPack`, processing sprites in order. -/
def shelfLoop (padding maxWidth maxHeight : Int) (st : ShelfState) :
    List SpriteInput → Except String ShelfState
  | [] => .ok st
  | s :: rest =>
    match shelfStep padding maxWidth maxHeight st s with
    | .error e => .error e
    | .ok st1 => shelfLoop padding maxWidth maxHeight st1 rest

/-- Comparator used by the pre-sort of `shelfPack`
(`(a, b) => a.name.localeCompare(b.name)`, ascending): the lexicographic
order on the names' character lists. -/
def nameLe (a b : SpriteInput) : Prop :=
  a.name.data ≤ b.name.data

instance : DecidableRel nameLe :=
  fun a b => inferInstanceAs (Decidable (a.name.data ≤ b.name.data))

/-- Name-ascending sort applied by `shelfPack` before placement
(`[...sprites].sort((a, b) => a.name.localeCompare(b.name))`). -/
def sortByName (sprites : List SpriteInput) : List SpriteInput :=
  List.insertionSort nameLe sprites

/-- Shelf packing algorithm of `packingAlgorithms.js`: sort by name, then fill
rows left-to-right, top-to-bottom. -/
def shelfPack (sprites : List SpriteInput) (options : PackingOptions) : ShelfResult :=
  if sprites.length = 0 then
    .success ⟨[], 0, 0, []⟩
  else
    let sortedSprites := sortByName sprites
    match shelfLoop options.padding options.maxWidth options.maxHeight
        ⟨[], options.padding, options.padding, 0, 0⟩ sortedSprites with
    | .error e => .failure e
    | .ok st => .success ⟨st.frames, st.atlasWidth, st.currentY + st.rowHeight, sortedSprites⟩

/-! Surface utilities (`src/utils/imageUtils.js`) and the atlas packer
(`src/core/atlasPacker.js`). -/

/-- Blank canvas of the given dimensions (`createCanvas`); a fresh canvas is
fully transparent, modelled by pixel value 0. -/
def createCanvas (w h : Int) : Surface :=
  ⟨w, h, fun _ _ => 0⟩

/-- Canvas `ctx.drawImage(src, x, y)`: copy `src` onto `dst` with its top-left
corner at `(x, y)`, leaving pixels outside the drawn rectangle unchanged. -/
def blit (dst src : Surface) (x y : Int) : Surface :=
  { dst with pix := fun px py =>
      if x ≤ px ∧ px < x + src.w ∧ y ≤ py ∧ py < y + src.h then
        src.pix (px - x) (py - y)
      else dst.pix px py }

/-- Canvas `ctx.drawImage(src, sx, sy, sw, sh, 0, 0, sw, sh)` onto a fresh
`sw × sh` canvas: copy out the rectangular sub-region. -/
def copyRegion (src : Surface) (x y w h : Int) : Surface :=
  ⟨w, h, fun i j =>
    if 0 ≤ i ∧ i < w ∧ 0 ≤ j ∧ j < h then src.pix (x + i) (y + j) else 0⟩

/-- Doubling loop of `nextPowerOfTwo` (`while (power < n) power *= 2`),
with explicit fuel; `fuel = n` always suffices since `2 ^ n ≥ n`. -/
def npotGo (n : Nat) : Nat → Nat → Nat
  | 0, power => power
  | fuel + 1, power => if power < n then npotGo n fuel (power * 2) else power

/-- Next power of two ≥ n (`nextPowerOfTwo` in `imageUtils.js`): 1 for
non-positive inputs, `n` itself when `n & (n - 1) == 0`, else the doubling
loop starting from 1. -/
def nextPowerOfTwo (n : Int) : Int :=
  if n ≤ 0 then 1
  else if n.toNat &&& (n.toNat - 1) = 0 then n
  else Int.ofNat (npotGo n.toNat n.toNat 1)

/-- Packer options `{ padding, maxAtlasSize, powerOfTwo }` with the
`DEFAULT_OPTIONS` of `atlasPacker.js` as defaults. -/
structure PackerOptions where
  padding : Int := 1
  maxAtlasSize : Int := 2048
  powerOfTwo : Bool := false

/-- Size record `meta.size` of the manifest. -/
structure SizeWH where
  w : Int
  h : Int
deriving DecidableEq

/-- Manifest `meta` record. -/
structure MetaInfo where
  app : String
  version : String
  size : SizeWH
deriving DecidableEq

/-- Atlas manifest `{ frames, meta }` (the `AtlasMetadata` typedef). -/
structure AtlasMetadata where
  frames : List Frame
  meta : MetaInfo
deriving DecidableEq

/-- Result of `packAtlas`: either the composited canvas plus manifest, or a
typed failure. -/
inductive PackerOutcome where
  | success (canvas : Surface) (metadata : AtlasMetadata)
  | failure (error : String)

/-- Compositing loop of `packAtlas`: draw each sprite at its frame origin,
in packing order. -/
def drawFrames (canvas : Surface) : List Frame → List SpriteInput → Surface
  | f :: fs, s :: ss => drawFrames (blit canvas s.image f.x f.y) fs ss
  | _, _ => canvas

/-- The atlas packer `packAtlas` of `atlasPacker.js`: validates the request,
runs `shelfPack` with `maxWidth = maxHeight = maxAtlasSize`, optionally rounds
the final dimensions up to powers of two, composites the sprites and emits the
manifest. -/
def packAtlas (sprites : List SpriteInput) (opts : PackerOptions) : PackerOutcome :=
  if sprites.length = 0 then
    .failure "No sprites provided. Please add at least one image."
  else if opts.maxAtlasSize < 32 then
    .failure "Maximum atlas size must be at least 32 pixels."
  else
    match shelfPack sprites ⟨opts.padding, opts.maxAtlasSize, opts.maxAtlasSize⟩ with
    | .failure e => .failure e
    | .success pr =>
      let finalWidth := if opts.powerOfTwo then nextPowerOfTwo pr.width else pr.width
      let finalHeight := if opts.powerOfTwo then nextPowerOfTwo pr.height else pr.height
      let canvas := drawFrames (createCanvas finalWidth finalHeight) pr.frames pr.sprites
      .success canvas ⟨pr.frames, ⟨"SpriteAtlasTool", "1.0", ⟨finalWidth, finalHeight⟩⟩⟩

/-! Atlas unpacker (`src/core/atlasUnpacker.js`), typed input as declared by
its JSDoc contract (`metadata : AtlasMetadata`). -/

/-- Extracted sprite `{ name, canvas, width, height }` (the PNG blob is the
encoding of `canvas` and is not modelled separately). -/
structure ExtractedSprite where
  name : String
  canvas : Surface
  width : Int
  height : Int

/-- Discriminated result of `unpackAtlas`. -/
inductive UnpackResult where
  | success (result : List ExtractedSprite)
  | failure (error : String)

/-- Negative-position error message of `unpackAtlas` (line 102 of
`atlasUnpacker.js`). -/
def negPositionMsg (f : Frame) : String :=
  "Frame \"" ++ f.name ++ "\" has negative position (" ++ toString f.x ++ ", " ++
    toString f.y ++ ")."

/-- Out-of-bounds error message of `unpackAtlas` (line 108 of
`atlasUnpacker.js`). -/
def beyondBoundsMsg (f : Frame) (atlasWidth atlasHeight : Int) : String :=
  "Frame \"" ++ f.name ++ "\" extends beyond atlas bounds. Frame: (" ++ toString f.x ++
    ", " ++ toString f.y ++ ", " ++ toString f.w ++ "x" ++ toString f.h ++ "), Atlas: " ++
    toString atlasWidth ++ "x" ++ toString atlasHeight

/-- Bounds-validation pass of `unpackAtlas`: scans the frames in manifest
order and reports the first frame with a negative position or one that
extends beyond the atlas. -/
def validateFrames (atlasWidth atlasHeight : Int) : List Frame → Option String
  | [] => none
  | f :: fs =>
    if f.x < 0 ∨ f.y < 0 then some (negPositionMsg f)
    else if f.x + f.w > atlasWidth ∨ f.y + f.h > atlasHeight then
      some (beyondBoundsMsg f atlasWidth atlasHeight)
    else validateFrames atlasWidth atlasHeight fs

/-- Extraction of a single frame: copy the `(x, y, w, h)` region of the atlas
into a fresh `w × h` canvas. -/
def extractFrame (atlas : Surface) (f : Frame) : ExtractedSprite :=
  ⟨f.name, copyRegion atlas f.x f.y f.w f.h, f.w, f.h⟩

/-- The atlas unpacker `unpackAtlas`: input checks, a bounds-validation pass
over all frames, then extraction of every frame in manifest order. -/
def unpackAtlas (atlasImage : Option Surface) (metadata : AtlasMetadata) : UnpackResult :=
  match atlasImage with
  | none => .failure "No atlas image provided."
  | some atlas =>
    if metadata.frames.length = 0 then
      .failure "Metadata contains no frames to extract."
    else
      match validateFrames atlas.w atlas.h metadata.frames with
      | some e => .failure e
      | none => .success (metadata.frames.map (extractFrame atlas))

/-! Dynamic JavaScript value model, needed for the functions whose inputs are
untyped values: `validateMetadata` (`imageLoader.js`) takes `any`, and the
entry checks of `unpackAtlas` behave dynamically when handed a value that is
not an `AtlasMetadata`. -/

/-- Untyped JavaScript value (numbers restricted to the integers that the
repository's data ever holds). -/
inductive JSVal where
  | undefined
  | null
  | bool (b : Bool)
  | num (n : Int)
  | str (s : String)
  | arr (elems : List JSVal)
  | obj (fields : List (String × JSVal))

/-- JavaScript truthiness: `undefined`, `null`, `false`, `0` and `""` are
falsy, everything else truthy. -/
def truthy : JSVal → Bool
  | .undefined => false
  | .null => false
  | .bool b => b
  | .num n => n != 0
  | .str s => s ≠ ""
  | .arr _ => true
  | .obj _ => true

/-- JavaScript `typeof`. -/
def typeofVal : JSVal → String
  | .undefined => "undefined"
  | .null => "object"
  | .bool _ => "boolean"
  | .num _ => "number"
  | .str _ => "string"
  | .arr _ => "object"
  | .obj _ => "object"

/-- A JavaScript value on which a member access throws: `null` or
`undefined`. -/
def nullish : JSVal → Bool
  | .null => true
  | .undefined => true
  | _ => false

/-- Message of the `TypeError` thrown by a member access on a nullish base
(engines append the property being read; the message text is abstracted
here). -/
def typeErrorMsg : JSVal → String
  | .null => "TypeError: Cannot read properties of null"
  | _ => "TypeError: Cannot read properties of undefined"

/-- Property read `v[k]` on a NON-nullish base: defined fields of plain
objects, `undefined` for absent fields and for reads off arrays and boxed
primitives.  A read on `null`/`undefined` throws in JavaScript; every use of
`memberOf` below sits behind a guard that excludes nullish bases — where the
source can actually perform a throwing read (the frame elements in
`checkFramesFrom`), the throw is modelled explicitly. -/
def memberOf : JSVal → String → JSVal
  | .obj fields, k =>
    match fields.find? (fun p => p.1 = k) with
    | some p => p.2
    | none => .undefined
  | _, _ => .undefined

/-- Property read `v.length` on a non-nullish base: array length, string
length, a `length` field of a plain object, `undefined` otherwise (its one
use below is guarded by a truthiness check). -/
def getLength : JSVal → JSVal
  | .arr xs => .num xs.length
  | .str s => .num s.length
  | .obj fields => memberOf (.obj fields) "length"
  | _ => .undefined

/-- JavaScript strict comparison `v === 0`. -/
def strictEqZero : JSVal → Bool
  | .num n => n == 0
  | _ => false

/-- JavaScript `Array.isArray`. -/
def isArrayVal : JSVal → Bool
  | .arr _ => true
  | _ => false

/-- String payload of a value known to be a string (used where the code has
already checked `typeof v === 'string'`). -/
def strVal : JSVal → String
  | .str s => s
  | _ => ""

/-- Observable outcome of a `validateMetadata` call: the returned
`{ valid, error? }` record, or an escaping exception — `validateMetadata`
performs unguarded member reads on the frame elements, which throw on
`null`/`undefined` elements. -/
inductive ValidationOutcome where
  | valid
  | invalid (error : String)
  | thrown (message : String)
deriving DecidableEq

/-- Per-frame type checks of `validateMetadata` with the running index `i`:
the first member read `frame.name` throws a `TypeError` when the element is
`null`/`undefined` (the leading branch); otherwise the element is non-nullish
and no later read on it can throw, and the first ill-typed field aborts with
its error — `name` must be a string, then `x`/`y` numbers, then `w`/`h`
numbers. -/
def checkFramesFrom (i : Nat) : List JSVal → ValidationOutcome
  | [] => .valid
  | f :: rest =>
    if nullish f then .thrown (typeErrorMsg f)
    else if typeofVal (memberOf f "name") ≠ "string" then
      .invalid ("Frame " ++ toString i ++ " missing \"name\"")
    else if typeofVal (memberOf f "x") ≠ "number" ∨ typeofVal (memberOf f "y") ≠ "number" then
      .invalid ("Frame \"" ++ strVal (memberOf f "name") ++ "\" missing position (x, y)")
    else if typeofVal (memberOf f "w") ≠ "number" ∨ typeofVal (memberOf f "h") ≠ "number" then
      .invalid ("Frame \"" ++ strVal (memberOf f "name") ++ "\" missing dimensions (w, h)")
    else checkFramesFrom (i + 1) rest

/-- The manifest validator `validateMetadata` of `imageLoader.js`, on an
arbitrary JavaScript value: root object check, `frames` array check, `meta`
object check, then the per-frame field checks.  The reads on the root value
are guarded (a truthy value of `typeof` "object" is never nullish), so only
the frame-element checks can throw. -/
def validateMetadata (metadata : JSVal) : ValidationOutcome :=
  if ¬ truthy metadata ∨ typeofVal metadata ≠ "object" then
    .invalid "Metadata must be an object"
  else if ¬ isArrayVal (memberOf metadata "frames") then
    .invalid "Metadata must have a \"frames\" array"
  else if ¬ truthy (memberOf metadata "meta") ∨ typeofVal (memberOf metadata "meta") ≠ "object" then
    .invalid "Metadata must have a \"meta\" object"
  else
    match memberOf metadata "frames" with
    | .arr fs => checkFramesFrom 0 fs
    | _ => .valid

/-- Outcome of the entry checks of `unpackAtlas` (lines 70–98 of
`atlasUnpacker.js`) when the `metadata` argument is an arbitrary dynamic
value: a typed failure, the start of the `for (const frame of
metadata.frames)` iteration over an array or over the characters of a string,
or a thrown `TypeError` when `metadata.frames` is truthy but not iterable. -/
inductive UnpackEntry where
  | failure (error : String)
  | iterate (frames : List JSVal)
  | iterateChars (s : String)
  | thrown (message : String)

/-- Entry behaviour of `unpackAtlas` on a dynamic `metadata` value: the
`!metadata || !metadata.frames` check, the `metadata.frames.length === 0`
check, then dispatch of the `for...of` iteration.  The member reads are
short-circuit-guarded (only a truthy, hence non-nullish, base is read), so
the only throwing path here is the `for...of` over a truthy non-iterable. -/
def unpackAtlasEntry (atlasImage : Option Surface) (metadata : JSVal) : UnpackEntry :=
  match atlasImage with
  | none => .failure "No atlas image provided."
  | some _ =>
    if ¬ truthy metadata ∨ ¬ truthy (memberOf metadata "frames") then
      .failure "Invalid metadata: missing frames array."
    else if strictEqZero (getLength (memberOf metadata "frames")) then
      .failure "Metadata contains no frames to extract."
    else
      match memberOf metadata "frames" with
      | .arr fs => .iterate fs
      | .str s => .iterateChars s
      | _ => .thrown "TypeError: metadata.frames is not iterable"

/-! Geometry predicates on frames. -/

/-- Membership of an integer pixel in a frame's half-open rectangle
`[x, x + w) × [y, y + h)`. -/
def InFrame (f : Frame) (px py : Int) : Prop :=
  f.x ≤ px ∧ px < f.x + f.w ∧ f.y ≤ py ∧ py < f.y + f.h

/-- Axis-separation of two frames; implies that their half-open pixel
rectangles share no point. -/
def FrameDisjoint (f g : Frame) : Prop :=
  f.x + f.w ≤ g.x ∨ g.x + g.w ≤ f.x ∨ f.y + f.h ≤ g.y ∨ g.y + g.h ≤ f.y

/-- Strict version of `nameLe`; antisymmetric on any list, which makes sorted
permutations unique. -/
def nameLt (a b : SpriteInput) : Prop :=
  a.name.data < b.name.data

instance : IsTotal SpriteInput nameLe :=
  ⟨fun a b => le_total a.name.data b.name.data⟩

instance : IsTrans SpriteInput nameLe :=
  ⟨fun _ _ _ hab hbc => le_trans hab hbc⟩

instance : IsAntisymm SpriteInput nameLt :=
  ⟨fun _ _ hab hba => absurd (lt_trans hab hba) (lt_irrefl _)⟩

/-- Correspondence between an emitted frame and the sprite it was made from:
same name and the sprite's width/height. -/
def frameMatches (f : Frame) (s : SpriteInput) : Prop :=
  f.name = s.name ∧ f.w = s.width ∧ f.h = s.height

/-- Weak loop invariant: every emitted frame lies inside the running
`atlasWidth × (currentY + rowHeight)` bounding box.  Holds for any sprite
dimensions as long as the padding is nonnegative. -/
def BoundsInv (st : ShelfState) : Prop :=
  ∀ f ∈ st.frames, f.x + f.w ≤ st.atlasWidth ∧ f.y + f.h ≤ st.currentY + st.rowHeight

/-- Strong loop invariant of the shelf placement (for nonnegative padding and
positive sprite dimensions): cursor lower bounds, frame positions inside the
atlas, the row structure (every frame is either in a finished row above the
cursor or in the current row left of the cursor), pairwise disjointness, and
the capacity bound against `maxWidth`/`maxHeight`. -/
structure ShelfInv (p mw mh : Int) (st : ShelfState) : Prop where
  cx_ge : p ≤ st.currentX
  cy_ge : p ≤ st.currentY
  rh_nonneg : 0 ≤ st.rowHeight
  pos : ∀ f ∈ st.frames, 0 ≤ f.x ∧ 0 ≤ f.y
  bounds : ∀ f ∈ st.frames, f.x + f.w ≤ st.atlasWidth ∧ f.y + f.h ≤ st.currentY + st.rowHeight
  row : ∀ f ∈ st.frames, f.y + f.h ≤ st.currentY ∨ (f.y = st.currentY ∧ f.x + f.w ≤ st.currentX)
  disj : st.frames.Pairwise FrameDisjoint
  cap : (st.frames = [] ∧ st.atlasWidth = 0 ∧ st.rowHeight = 0) ∨
        (st.atlasWidth ≤ mw ∧ st.currentY + st.rowHeight ≤ mh)

/-- Drawn rectangles agree with the frame rectangles: the image of
`ss.get i` is `fs.get i`'s rectangle. -/
def frameImageDims (f : Frame) (s : SpriteInput) : Prop :=
  f.w = s.image.w ∧ f.h = s.image.h

/-- A frame passes the unpacker's bounds validation against a
`atlasWidth × atlasHeight` surface. -/
def frameOk (atlasWidth atlasHeight : Int) (f : Frame) : Prop :=
  0 ≤ f.x ∧ 0 ≤ f.y ∧ f.x + f.w ≤ atlasWidth ∧ f.y + f.h ≤ atlasHeight

/-- Boolean violation test matching the two `if` conditions of the
validation loop. -/
def offends (atlasWidth atlasHeight : Int) (f : Frame) : Bool :=
  decide (f.x < 0) || decide (f.y < 0) ||
    decide (f.x + f.w > atlasWidth) || decide (f.y + f.h > atlasHeight)

/-- Error the validation loop reports for an offending frame: negative
position takes priority over the out-of-bounds error. -/
def offendError (atlasWidth atlasHeight : Int) (f : Frame) : String :=
  if f.x < 0 ∨ f.y < 0 then negPositionMsg f else beyondBoundsMsg f atlasWidth atlasHeight

/-- A dynamic frame value passes all of the validator's per-frame checks: it
is not nullish (so its member reads do not throw) and all five fields are
well-typed. -/
def frameWellTyped (f : JSVal) : Prop :=
  nullish f = false ∧
  typeofVal (memberOf f "name") = "string" ∧
  typeofVal (memberOf f "x") = "number" ∧ typeofVal (memberOf f "y") = "number" ∧
  typeofVal (memberOf f "w") = "number" ∧ typeofVal (memberOf f "h") = "number"

instance (f : JSVal) : Decidable (frameWellTyped f) := by
  unfold frameWellTyped
  infer_instance

/-- Error reported for the first frame failing the validator's field checks:
missing name first, then position, then dimensions. -/
def frameErrorMsg (i : Nat) (f : JSVal) : String :=
  if typeofVal (memberOf f "name") ≠ "string" then
    "Frame " ++ toString i ++ " missing \"name\""
  else if typeofVal (memberOf f "x") ≠ "number" ∨ typeofVal (memberOf f "y") ≠ "number" then
    "Frame \"" ++ strVal (memberOf f "name") ++ "\" missing position (x, y)"
  else
    "Frame \"" ++ strVal (memberOf f "name") ++ "\" missing dimensions (w, h)"

/-- Concrete sprite inputs for Scenario A: three 32 × 32 sprites named
`a`, `b`, `c`. -/
def scenarioASprites : List SpriteInput :=
  [⟨"a", ⟨32, 32, fun _ _ => 1⟩, 32, 32⟩,
   ⟨"b", ⟨32, 32, fun _ _ => 2⟩, 32, 32⟩,
   ⟨"c", ⟨32, 32, fun _ _ => 3⟩, 32, 32⟩]

/-- Domain of the packing constraints record per the data model: nonnegative
padding and maximum dimensions of at least 32 pixels. -/
def ValidConstraints (o : PackingOptions) : Prop :=
  0 ≤ o.padding ∧ 32 ≤ o.maxWidth ∧ 32 ≤ o.maxHeight

/-- Two sprites with distinct names used by the order-independence witness. -/
def wSpriteA : SpriteInput := ⟨"alpha", ⟨8, 8, fun _ _ => 1⟩, 8, 8⟩

/-- Second witness sprite. -/
def wSpriteB : SpriteInput := ⟨"beta", ⟨8, 8, fun _ _ => 2⟩, 8, 8⟩

/-- Sprites of the C6 counterexample: a and b fill the 64×64 atlas so that
the capacity failure fires before the loop ever reaches the oversized z. -/
def cexSprites : List SpriteInput :=
  [⟨"a", ⟨40, 60, fun _ _ => 1⟩, 40, 60⟩,
   ⟨"b", ⟨40, 60, fun _ _ => 2⟩, 40, 60⟩,
   ⟨"z", ⟨100, 100, fun _ _ => 3⟩, 100, 100⟩]

/-- The 100×100 sprite of Scenario B. -/
def bigSprite : SpriteInput := ⟨"big", ⟨100, 100, fun _ _ => 1⟩, 100, 100⟩

/-- Correspondence between an extracted sprite and an original input sprite:
equal name, equal dimensions, and equal pixel content over the sprite's
rectangle. -/
def SpriteMatch (e : ExtractedSprite) (s : SpriteInput) : Prop :=
  e.name = s.name ∧ e.width = s.width ∧ e.height = s.height ∧
  ∀ a b : Int, 0 ≤ a → a < s.width → 0 ≤ b → b < s.height →
    e.canvas.pix a b = s.image.pix a b

theorem FrameDisjoint.not_both {f g : Frame} (h : FrameDisjoint f g) (px py : Int) :
    ¬ (InFrame f px py ∧ InFrame g px py) := by
  rintro ⟨⟨h1, h2, h3, h4⟩, h5, h6, h7, h8⟩
  rcases h with h | h | h | h <;> omega

/-! Properties of the name-ascending pre-sort. -/

theorem sortByName_perm (l : List SpriteInput) : (sortByName l).Perm l :=
  List.perm_insertionSort nameLe l

theorem sortByName_sorted (l : List SpriteInput) : (sortByName l).Sorted nameLe :=
  List.sorted_insertionSort nameLe l

theorem sorted_nameLt_of_nodup {l : List SpriteInput}
    (hs : l.Sorted nameLe) (hn : (l.map SpriteInput.name).Nodup) :
    l.Sorted nameLt := by
  have hne : l.Pairwise (fun a b => a.name ≠ b.name) := List.pairwise_map.mp hn
  refine (List.Pairwise.and hs hne).imp ?_
  intro a b ⟨hle, hneq⟩
  exact lt_of_le_of_ne hle (fun hdata => hneq (String.ext hdata))

/-- Sorting is insensitive to the input order when names are pairwise
distinct: the sorted list is the unique `nameLe`-sorted permutation. -/
theorem sortByName_eq_of_perm {l₁ l₂ : List SpriteInput} (hp : l₁.Perm l₂)
    (hn : (l₁.map SpriteInput.name).Nodup) : sortByName l₁ = sortByName l₂ := by
  have hperm : (sortByName l₁).Perm (sortByName l₂) :=
    (sortByName_perm l₁).trans (hp.trans (sortByName_perm l₂).symm)
  have hn₁ : ((sortByName l₁).map SpriteInput.name).Nodup :=
    (((sortByName_perm l₁).map SpriteInput.name).nodup_iff).mpr hn
  have hn₂ : ((sortByName l₂).map SpriteInput.name).Nodup :=
    ((hperm.map SpriteInput.name).nodup_iff).mp hn₁
  exact List.eq_of_perm_of_sorted (r := nameLt) hperm
    (sorted_nameLt_of_nodup (sortByName_sorted l₁) hn₁)
    (sorted_nameLt_of_nodup (sortByName_sorted l₂) hn₂)

/-! Elimination and preservation lemmas for the placement loop. -/

theorem shelfStep_ok_elim {p mw mh : Int} {st st' : ShelfState} {s : SpriteInput}
    (h : shelfStep p mw mh st s = .ok st') :
    (s.width + p * 2 ≤ mw ∧ s.height + p * 2 ≤ mh) ∧
    ∃ st1 : ShelfState, st1.frames = st.frames ∧ st1.atlasWidth = st.atlasWidth ∧
      ((st1 = st ∧ st.currentX + (s.width + p) ≤ mw) ∨
       (st1.currentX = p ∧ st1.currentY = st.currentY + st.rowHeight ∧ st1.rowHeight = 0 ∧
         mw < st.currentX + (s.width + p))) ∧
      st1.currentY + (s.height + p) ≤ mh ∧
      st'.frames = st1.frames ++ [⟨s.name, st1.currentX, st1.currentY, s.width, s.height⟩] ∧
      st'.currentX = st1.currentX + (s.width + p) ∧
      st'.currentY = st1.currentY ∧
      st'.rowHeight = max st1.rowHeight (s.height + p) ∧
      st'.atlasWidth = max st1.atlasWidth (st1.currentX + s.width + p) := by
  unfold shelfStep at h
  split at h
  · exact absurd h (by simp)
  · next hover =>
    push_neg at hover
    dsimp only at h
    split at h
    · next hwrap =>
      split at h
      · exact absurd h (by simp)
      · next hht =>
        refine ⟨⟨hover.1, hover.2⟩, ⟨st.frames, p, st.currentY + st.rowHeight, 0, st.atlasWidth⟩,
          rfl, rfl, Or.inr ⟨rfl, rfl, rfl, by omega⟩, by simpa using hht, ?_⟩
        cases h.symm
        simp
    · next hwrap =>
      split at h
      · exact absurd h (by simp)
      · next hht =>
        refine ⟨⟨hover.1, hover.2⟩, st, rfl, rfl, Or.inl ⟨rfl, by omega⟩, by omega, ?_⟩
        cases h.symm
        simp

theorem shelfStep_err_over {p mw mh : Int} {st : ShelfState} {s : SpriteInput}
    (hover : s.width + p * 2 > mw ∨ s.height + p * 2 > mh) :
    shelfStep p mw mh st s = .error (tooLargeMsg s mw mh) := by
  unfold shelfStep
  rw [if_pos hover]

theorem shelfStep_ok_frames {p mw mh : Int} {st st' : ShelfState} {s : SpriteInput}
    (h : shelfStep p mw mh st s = .ok st') :
    ∃ f : Frame, st'.frames = st.frames ++ [f] ∧ frameMatches f s := by
  obtain ⟨-, st1, hfr, -, -, -, hfr', -⟩ := shelfStep_ok_elim h
  exact ⟨_, by rw [hfr', hfr], ⟨rfl, rfl, rfl⟩⟩

theorem shelfLoop_frames {p mw mh : Int} :
    ∀ {l : List SpriteInput} {st st' : ShelfState},
      shelfLoop p mw mh st l = .ok st' →
      ∃ new, st'.frames = st.frames ++ new ∧ List.Forall₂ frameMatches new l
  | [], st, st', h => by
    cases h
    exact ⟨[], by simp, List.Forall₂.nil⟩
  | s :: rest, st, st', h => by
    rw [shelfLoop] at h
    cases hstep : shelfStep p mw mh st s with
    | error e => rw [hstep] at h; exact absurd h (by simp)
    | ok st1 =>
      rw [hstep] at h
      obtain ⟨new, hfr, hmatch⟩ := shelfLoop_frames h
      obtain ⟨f, hfr1, hfm⟩ := shelfStep_ok_frames hstep
      exact ⟨f :: new, by rw [hfr, hfr1, List.append_assoc, List.singleton_append],
        List.Forall₂.cons hfm hmatch⟩

theorem shelfStep_boundsInv {p mw mh : Int} {st st' : ShelfState} {s : SpriteInput}
    (hp : 0 ≤ p) (hstep : shelfStep p mw mh st s = .ok st') (hinv : BoundsInv st) :
    BoundsInv st' := by
  obtain ⟨-, st1, hfr1, haw1, hcase, -, hfr', -, hcy', hrh', haw'⟩ := shelfStep_ok_elim hstep
  have h1 : ∀ f ∈ st1.frames, f.x + f.w ≤ st1.atlasWidth ∧
      f.y + f.h ≤ st1.currentY + st1.rowHeight := by
    intro f hf
    rw [hfr1] at hf
    have := hinv f hf
    rcases hcase with ⟨heq, -⟩ | ⟨-, hcy1, hrh1, -⟩
    · rw [heq]; exact this
    · rw [haw1, hcy1, hrh1]; omega
  intro f hf
  rw [hfr'] at hf
  rw [hcy', hrh', haw']
  rcases List.mem_append.mp hf with hf | hf
  · have := h1 f hf
    omega
  · have : f = ⟨s.name, st1.currentX, st1.currentY, s.width, s.height⟩ :=
      List.mem_singleton.mp hf
    subst this
    simp only
    omega

theorem shelfLoop_boundsInv {p mw mh : Int} (hp : 0 ≤ p) :
    ∀ {l : List SpriteInput} {st st' : ShelfState},
      shelfLoop p mw mh st l = .ok st' → BoundsInv st → BoundsInv st'
  | [], st, st', h, hinv => by cases h; exact hinv
  | s :: rest, st, st', h, hinv => by
    rw [shelfLoop] at h
    cases hstep : shelfStep p mw mh st s with
    | error e => rw [hstep] at h; exact absurd h (by simp)
    | ok st1 =>
      rw [hstep] at h
      exact shelfLoop_boundsInv hp h (shelfStep_boundsInv hp hstep hinv)

theorem shelfInv_init (p mw mh : Int) : ShelfInv p mw mh ⟨[], p, p, 0, 0⟩ where
  cx_ge := le_refl p
  cy_ge := le_refl p
  rh_nonneg := le_refl 0
  pos := by simp
  bounds := by simp
  row := by simp
  disj := List.Pairwise.nil
  cap := Or.inl ⟨rfl, rfl, rfl⟩

theorem shelfStep_inv {p mw mh : Int} {st st' : ShelfState} {s : SpriteInput}
    (hp : 0 ≤ p) (hw : 0 < s.width) (hh : 0 < s.height)
    (hstep : shelfStep p mw mh st s = .ok st') (hinv : ShelfInv p mw mh st) :
    ShelfInv p mw mh st' := by
  obtain ⟨⟨how, hoh⟩, st1, hfr1, haw1, hcase, hht, hfr', hcx', hcy', hrh', haw'⟩ :=
    shelfStep_ok_elim hstep
  -- invariant facts for the intermediate (possibly row-wrapped) state
  have h1cx : p ≤ st1.currentX := by
    rcases hcase with ⟨heq, -⟩ | ⟨hcx1, -⟩
    · rw [heq]; exact hinv.cx_ge
    · omega
  have h1cy : p ≤ st1.currentY := by
    rcases hcase with ⟨heq, -⟩ | ⟨-, hcy1, -⟩
    · rw [heq]; exact hinv.cy_ge
    · have := hinv.cy_ge; have := hinv.rh_nonneg; omega
  have h1rh : 0 ≤ st1.rowHeight := by
    rcases hcase with ⟨heq, -⟩ | ⟨-, -, hrh1, -⟩
    · rw [heq]; exact hinv.rh_nonneg
    · omega
  have h1pos : ∀ f ∈ st1.frames, 0 ≤ f.x ∧ 0 ≤ f.y := by
    rw [hfr1]; exact hinv.pos
  have h1bounds : ∀ f ∈ st1.frames, f.x + f.w ≤ st1.atlasWidth ∧
      f.y + f.h ≤ st1.currentY + st1.rowHeight := by
    intro f hf
    rw [hfr1] at hf
    have := hinv.bounds f hf
    rcases hcase with ⟨heq, -⟩ | ⟨-, hcy1, hrh1, -⟩
    · rw [heq]; exact this
    · rw [haw1, hcy1, hrh1]; omega
  have h1row : ∀ f ∈ st1.frames,
      f.y + f.h ≤ st1.currentY ∨ (f.y = st1.currentY ∧ f.x + f.w ≤ st1.currentX) := by
    intro f hf
    rw [hfr1] at hf
    rcases hcase with ⟨heq, -⟩ | ⟨-, hcy1, -⟩
    · rw [heq]; exact hinv.row f hf
    · left
      have := hinv.bounds f hf
      omega
  have h1disj : st1.frames.Pairwise FrameDisjoint := by
    rw [hfr1]; exact hinv.disj
  have h1cap : (st1.frames = [] ∧ st1.atlasWidth = 0 ∧ st1.rowHeight = 0) ∨
      (st1.atlasWidth ≤ mw ∧ st1.currentY + st1.rowHeight ≤ mh) := by
    rcases hcase with ⟨heq, -⟩ | ⟨-, hcy1, hrh1, -⟩
    · rw [heq]; exact hinv.cap
    · rcases hinv.cap with ⟨he, ha, hr⟩ | ⟨ha, hbb⟩
      · exact Or.inl ⟨by rw [hfr1]; exact he, by rw [haw1]; exact ha, hrh1⟩
      · exact Or.inr ⟨by rw [haw1]; exact ha, by omega⟩
  have hfit : st1.currentX + s.width + p ≤ mw := by
    rcases hcase with ⟨heq, hle⟩ | ⟨hcx1, -⟩
    · rw [heq]; omega
    · omega
  -- invariant for the state after placement
  constructor
  · omega
  · omega
  · have := le_max_left st1.rowHeight (s.height + p); omega
  · intro f hf
    rw [hfr'] at hf
    rcases List.mem_append.mp hf with hf | hf
    · exact h1pos f hf
    · rw [List.mem_singleton.mp hf]
      constructor <;> simp only [] <;> omega
  · intro f hf
    rw [hfr'] at hf
    rw [hcy', hrh', haw']
    rcases List.mem_append.mp hf with hf | hf
    · have := h1bounds f hf; omega
    · rw [List.mem_singleton.mp hf]
      simp only []
      omega
  · intro f hf
    rw [hfr'] at hf
    rw [hcy', hcx']
    rcases List.mem_append.mp hf with hf | hf
    · rcases h1row f hf with hc | ⟨hc1, hc2⟩
      · exact Or.inl hc
      · exact Or.inr ⟨hc1, by omega⟩
    · rw [List.mem_singleton.mp hf]
      exact Or.inr ⟨rfl, by simp only []; omega⟩
  · rw [hfr']
    refine (List.pairwise_append).mpr ⟨h1disj, List.pairwise_singleton _ _, ?_⟩
    intro f hf g hg
    rw [List.mem_singleton.mp hg]
    rcases h1row f hf with hc | ⟨hc1, hc2⟩
    · exact Or.inr (Or.inr (Or.inl hc))
    · exact Or.inl hc2
  · right
    have hmw1 : 0 < mw := by omega
    have hmain : st1.atlasWidth ≤ mw ∧ st1.currentY + st1.rowHeight ≤ mh ∨
        st1.rowHeight = 0 ∧ st1.atlasWidth = 0 := by
      rcases h1cap with ⟨-, ha, hr⟩ | hc
      · exact Or.inr ⟨hr, ha⟩
      · exact Or.inl hc
    rw [haw', hcy', hrh']
    rcases hmain with ⟨ha, hbb⟩ | ⟨hr, ha⟩ <;> omega

theorem shelfLoop_inv {p mw mh : Int} (hp : 0 ≤ p) :
    ∀ {l : List SpriteInput} {st st' : ShelfState},
      shelfLoop p mw mh st l = .ok st' →
      (∀ s ∈ l, 0 < s.width ∧ 0 < s.height) →
      ShelfInv p mw mh st → ShelfInv p mw mh st'
  | [], st, st', h, _, hinv => by cases h; exact hinv
  | s :: rest, st, st', h, hdims, hinv => by
    rw [shelfLoop] at h
    cases hstep : shelfStep p mw mh st s with
    | error e => rw [hstep] at h; exact absurd h (by simp)
    | ok st1 =>
      rw [hstep] at h
      have hd := hdims s (List.mem_cons_self s rest)
      exact shelfLoop_inv hp h (fun t ht => hdims t (List.mem_cons_of_mem s ht))
        (shelfStep_inv hp hd.1 hd.2 hstep hinv)

theorem shelfLoop_err_of_mem {p mw mh : Int} :
    ∀ {l : List SpriteInput} (st : ShelfState),
      (∃ s ∈ l, s.width + p * 2 > mw ∨ s.height + p * 2 > mh) →
      ∃ e, shelfLoop p mw mh st l = .error e
  | [], _, h => by simp at h
  | s :: rest, st, h => by
    cases hstep : shelfStep p mw mh st s with
    | error e =>
      rw [shelfLoop, hstep]
      exact ⟨e, rfl⟩
    | ok st1 =>
      rw [shelfLoop, hstep]
      rcases h with ⟨t, ht, hover⟩
      rcases List.mem_cons.mp ht with rfl | ht
      · rw [shelfStep_err_over hover] at hstep
        exact absurd hstep (by simp)
      · exact shelfLoop_err_of_mem st1 ⟨t, ht, hover⟩

theorem shelfPack_success_elim {S : List SpriteInput} {o : PackingOptions} {r : PackingResult}
    (h : shelfPack S o = .success r) (hne : S ≠ []) :
    ∃ st : ShelfState,
      shelfLoop o.padding o.maxWidth o.maxHeight ⟨[], o.padding, o.padding, 0, 0⟩
        (sortByName S) = .ok st ∧
      r.frames = st.frames ∧ r.width = st.atlasWidth ∧
      r.height = st.currentY + st.rowHeight ∧ r.sprites = sortByName S := by
  unfold shelfPack at h
  rw [if_neg (by simpa using hne)] at h
  dsimp only at h
  cases hloop : shelfLoop o.padding o.maxWidth o.maxHeight
      ⟨[], o.padding, o.padding, 0, 0⟩ (sortByName S) with
  | error e => rw [hloop] at h; exact absurd h (by simp)
  | ok st =>
    rw [hloop] at h
    cases h
    exact ⟨st, rfl, rfl, rfl, rfl, rfl⟩

theorem shelfPack_failure_elim {S : List SpriteInput} {o : PackingOptions} {e : String}
    (h : shelfPack S o = .failure e) :
    S ≠ [] ∧
    shelfLoop o.padding o.maxWidth o.maxHeight ⟨[], o.padding, o.padding, 0, 0⟩
      (sortByName S) = .error e := by
  unfold shelfPack at h
  by_cases hne : S.length = 0
  · rw [if_pos hne] at h; exact absurd h (by simp)
  · rw [if_neg hne] at h
    dsimp only at h
    refine ⟨by simpa using hne, ?_⟩
    cases hloop : shelfLoop o.padding o.maxWidth o.maxHeight
        ⟨[], o.padding, o.padding, 0, 0⟩ (sortByName S) with
    | error e' =>
      rw [hloop] at h
      cases h
      rfl
    | ok st => rw [hloop] at h; exact absurd h (by simp)

/-! Properties of `nextPowerOfTwo`. -/

theorem npotGo_ge {n : Nat} :
    ∀ (fuel power : Nat), n ≤ power * 2 ^ fuel → n ≤ npotGo n fuel power
  | 0, power, h => by simpa [npotGo] using h
  | fuel + 1, power, h => by
    rw [npotGo]
    split
    · refine npotGo_ge fuel (power * 2) ?_
      have heq : power * 2 * 2 ^ fuel = power * 2 ^ (fuel + 1) := by ring
      omega
    · omega

/-- Rounding to the next power of two never shrinks: `n ≤ nextPowerOfTwo n`. -/
theorem le_nextPowerOfTwo (n : Int) : n ≤ nextPowerOfTwo n := by
  unfold nextPowerOfTwo
  split
  · omega
  · split
    · exact le_refl n
    · next h0 _ =>
      have h2 : n.toNat ≤ npotGo n.toNat n.toNat 1 :=
        npotGo_ge n.toNat 1 (by simpa using (Nat.lt_two_pow n.toNat).le)
      calc n = (n.toNat : Int) := (Int.toNat_of_nonneg (by omega)).symm
        _ ≤ ((npotGo n.toNat n.toNat 1 : Nat) : Int) := by exact_mod_cast h2

/-! Properties of the compositing and extraction surfaces. -/

theorem drawFrames_dims :
    ∀ (fs : List Frame) (ss : List SpriteInput) (base : Surface),
      (drawFrames base fs ss).w = base.w ∧ (drawFrames base fs ss).h = base.h
  | [], _, _ => ⟨rfl, rfl⟩
  | _ :: _, [], _ => ⟨rfl, rfl⟩
  | _ :: fs, _ :: ss, base => drawFrames_dims fs ss _

theorem drawFrames_pix_notin :
    ∀ {fs : List Frame} {ss : List SpriteInput} (base : Surface) {px py : Int},
      List.Forall₂ frameImageDims fs ss →
      (∀ f ∈ fs, ¬ InFrame f px py) →
      (drawFrames base fs ss).pix px py = base.pix px py
  | _, _, _, _, _, .nil, _ => rfl
  | f :: fs, s :: ss, base, px, py, .cons ⟨hw, hh⟩ hrest, hnot => by
    rw [drawFrames]
    rw [drawFrames_pix_notin _ hrest
      (fun g hg => hnot g (List.mem_cons_of_mem f hg))]
    simp only [blit]
    rw [if_neg]
    intro hc
    exact hnot f (List.mem_cons_self f fs) ⟨hc.1, hw ▸ hc.2.1, hc.2.2.1, hh ▸ hc.2.2.2⟩

theorem drawFrames_pix_get :
    ∀ {fs : List Frame} {ss : List SpriteInput} (base : Surface),
      List.Forall₂ frameImageDims fs ss →
      fs.Pairwise FrameDisjoint →
      ∀ (i : Nat) (hi : i < fs.length) (hi' : i < ss.length) (a b : Int),
        0 ≤ a → a < (fs.get ⟨i, hi⟩).w → 0 ≤ b → b < (fs.get ⟨i, hi⟩).h →
        (drawFrames base fs ss).pix ((fs.get ⟨i, hi⟩).x + a) ((fs.get ⟨i, hi⟩).y + b) =
          (ss.get ⟨i, hi'⟩).image.pix a b
  | f :: fs, s :: ss, base, .cons ⟨hw, hh⟩ hrest, hpair, 0, hi, hi', a, b, ha0, haw, hb0, hbh => by
    rw [drawFrames]
    simp only [List.get] at haw hbh ⊢
    have hinf : InFrame f (f.x + a) (f.y + b) := ⟨by omega, by omega, by omega, by omega⟩
    rw [drawFrames_pix_notin _ hrest ?notin]
    case notin =>
      intro g hg hing
      exact (List.rel_of_pairwise_cons hpair hg).not_both (f.x + a) (f.y + b) ⟨hinf, hing⟩
    simp only [blit]
    rw [if_pos ⟨by omega, by rw [← hw]; omega, by omega, by rw [← hh]; omega⟩]
    have h1 : f.x + a - f.x = a := by omega
    have h2 : f.y + b - f.y = b := by omega
    rw [h1, h2]
  | f :: fs, s :: ss, base, .cons _ hrest, hpair, i + 1, hi, hi', a, b, ha0, haw, hb0, hbh => by
    rw [drawFrames]
    simp only [List.get] at haw hbh ⊢
    exact drawFrames_pix_get _ hrest (List.Pairwise.sublist (List.sublist_cons_self f fs) hpair)
      i (by simpa using Nat.lt_of_succ_lt_succ hi) (by simpa using Nat.lt_of_succ_lt_succ hi')
      a b ha0 haw hb0 hbh

/-! Properties of the unpacker's bounds validation. -/

theorem validateFrames_none {aw ah : Int} :
    ∀ {fs : List Frame}, (∀ f ∈ fs, frameOk aw ah f) → validateFrames aw ah fs = none
  | [], _ => rfl
  | f :: fs, h => by
    have hf := h f (List.mem_cons_self f fs)
    rw [validateFrames, if_neg (by unfold frameOk at hf; omega),
      if_neg (by unfold frameOk at hf; omega)]
    exact validateFrames_none (fun g hg => h g (List.mem_cons_of_mem f hg))

theorem validateFrames_find {aw ah : Int} :
    ∀ {fs : List Frame} {f : Frame}, fs.find? (offends aw ah) = some f →
      validateFrames aw ah fs = some (offendError aw ah f)
  | g :: fs, f, h => by
    by_cases hg : offends aw ah g = true
    · rw [List.find?_cons_of_pos _ hg] at h
      injection h with hgf
      subst hgf
      unfold offends at hg
      simp only [Bool.or_eq_true, decide_eq_true_eq] at hg
      unfold validateFrames offendError
      by_cases hneg : g.x < 0 ∨ g.y < 0
      · rw [if_pos hneg, if_pos hneg]
      · rw [if_neg hneg, if_neg hneg, if_pos (by omega)]
    · rw [List.find?_cons_of_neg _ hg] at h
      unfold offends at hg
      simp only [Bool.or_eq_true, decide_eq_true_eq] at hg
      push_neg at hg
      rw [validateFrames, if_neg (by omega), if_neg (by omega)]
      exact validateFrames_find h

theorem unpackAtlas_failure_of_find {atlas : Surface} {md : AtlasMetadata} {f : Frame}
    (h : md.frames.find? (offends atlas.w atlas.h) = some f) :
    unpackAtlas (some atlas) md = .failure (offendError atlas.w atlas.h f) := by
  have hne : md.frames ≠ [] := by
    intro he
    rw [he] at h
    simp at h
  unfold unpackAtlas
  dsimp only
  rw [if_neg (by simpa using hne), validateFrames_find h]

/-! Properties of the dynamic metadata validator. -/

theorem checkFramesFrom_valid :
    ∀ {fs : List JSVal} (i : Nat), (∀ f ∈ fs, frameWellTyped f) → checkFramesFrom i fs = .valid
  | [], _, _ => rfl
  | f :: fs, i, h => by
    have hf := h f (List.mem_cons_self f fs)
    rw [checkFramesFrom, if_neg (by simp [hf.1]), if_neg (by simp [hf.2.1]),
      if_neg (by simp [hf.2.2.1, hf.2.2.2.1]), if_neg (by simp [hf.2.2.2.2.1, hf.2.2.2.2.2])]
    exact checkFramesFrom_valid (i + 1) (fun g hg => h g (List.mem_cons_of_mem f hg))

theorem checkFramesFrom_first_null :
    ∀ {fs : List JSVal} (i : Nat) {j : Nat} (hj : j < fs.length),
      (∀ m (hm : m < j), frameWellTyped (fs.get ⟨m, Nat.lt_trans hm hj⟩)) →
      nullish (fs.get ⟨j, hj⟩) = true →
      checkFramesFrom i fs = .thrown (typeErrorMsg (fs.get ⟨j, hj⟩))
  | f :: fs, _, 0, hj, _, hnull => by
    simp only [List.get] at hnull ⊢
    rw [checkFramesFrom, if_pos hnull]
  | f :: fs, i, j + 1, hj, hgood, hnull => by
    have hf : frameWellTyped f := by
      have := hgood 0 (Nat.succ_pos j)
      simpa using this
    simp only [List.get] at hnull ⊢
    rw [checkFramesFrom, if_neg (by simp [hf.1]), if_neg (by simp [hf.2.1]),
      if_neg (by simp [hf.2.2.1, hf.2.2.2.1]), if_neg (by simp [hf.2.2.2.2.1, hf.2.2.2.2.2])]
    exact checkFramesFrom_first_null (i + 1) (Nat.lt_of_succ_lt_succ hj)
      (fun m hm => by have := hgood (m + 1) (Nat.succ_lt_succ hm); simpa using this)
      hnull

theorem checkFramesFrom_first_bad :
    ∀ {fs : List JSVal} (i : Nat) {j : Nat} (hj : j < fs.length),
      (∀ m (hm : m < j), frameWellTyped (fs.get ⟨m, Nat.lt_trans hm hj⟩)) →
      nullish (fs.get ⟨j, hj⟩) = false →
      ¬ frameWellTyped (fs.get ⟨j, hj⟩) →
      checkFramesFrom i fs = .invalid (frameErrorMsg (i + j) (fs.get ⟨j, hj⟩))
  | f :: fs, i, 0, hj, _, hnn, hbad => by
    simp only [List.get] at hnn hbad ⊢
    rw [checkFramesFrom, if_neg (by simp [hnn])]
    by_cases h1 : typeofVal (memberOf f "name") = "string"
    case neg =>
      rw [if_pos (by simpa using h1)]
      unfold frameErrorMsg
      rw [if_pos (by simpa using h1)]
      simp
    case pos =>
      rw [if_neg (by simpa using h1)]
      by_cases h2 : typeofVal (memberOf f "x") = "number" ∧ typeofVal (memberOf f "y") = "number"
      case neg =>
        have hcond : typeofVal (memberOf f "x") ≠ "number" ∨
            typeofVal (memberOf f "y") ≠ "number" := by tauto
        rw [if_pos hcond]
        unfold frameErrorMsg
        rw [if_neg (by simpa using h1), if_pos hcond]
      case pos =>
        have hcond : ¬ (typeofVal (memberOf f "x") ≠ "number" ∨
            typeofVal (memberOf f "y") ≠ "number") := by tauto
        have h3 : typeofVal (memberOf f "w") ≠ "number" ∨
            typeofVal (memberOf f "h") ≠ "number" := by
          unfold frameWellTyped at hbad
          tauto
        rw [if_neg hcond, if_pos h3]
        unfold frameErrorMsg
        rw [if_neg (by simpa using h1), if_neg hcond]
  | f :: fs, i, j + 1, hj, hgood, hnn, hbad => by
    have hf : frameWellTyped f := by
      have := hgood 0 (Nat.succ_pos j)
      simpa using this
    simp only [List.get] at hnn hbad ⊢
    rw [checkFramesFrom, if_neg (by simp [hf.1]), if_neg (by simp [hf.2.1]),
      if_neg (by simp [hf.2.2.1, hf.2.2.2.1]), if_neg (by simp [hf.2.2.2.2.1, hf.2.2.2.2.2])]
    have := checkFramesFrom_first_bad (i + 1) (j := j)
      (Nat.lt_of_succ_lt_succ hj)
      (fun m hm => by have := hgood (m + 1) (Nat.succ_lt_succ hm); simpa using this)
      hnn hbad
    rw [this]
    have harith : i + 1 + j = i + (j + 1) := by omega
    rw [harith]

theorem packAtlas_success_elim {S : List SpriteInput} {opts : PackerOptions}
    {canvas : Surface} {md : AtlasMetadata}
    (h : packAtlas S opts = .success canvas md) :
    S ≠ [] ∧ 32 ≤ opts.maxAtlasSize ∧
    ∃ pr : PackingResult,
      shelfPack S ⟨opts.padding, opts.maxAtlasSize, opts.maxAtlasSize⟩ = .success pr ∧
      md = ⟨pr.frames, ⟨"SpriteAtlasTool", "1.0",
        ⟨if opts.powerOfTwo then nextPowerOfTwo pr.width else pr.width,
         if opts.powerOfTwo then nextPowerOfTwo pr.height else pr.height⟩⟩⟩ ∧
      canvas = drawFrames
        (createCanvas (if opts.powerOfTwo then nextPowerOfTwo pr.width else pr.width)
          (if opts.powerOfTwo then nextPowerOfTwo pr.height else pr.height))
        pr.frames pr.sprites := by
  unfold packAtlas at h
  by_cases h0 : S.length = 0
  · rw [if_pos h0] at h; exact absurd h (by simp)
  · rw [if_neg h0] at h
    by_cases h32 : opts.maxAtlasSize < 32
    · rw [if_pos h32] at h; exact absurd h (by simp)
    · rw [if_neg h32] at h
      refine ⟨by simpa using h0, by omega, ?_⟩
      cases hsp : shelfPack S ⟨opts.padding, opts.maxAtlasSize, opts.maxAtlasSize⟩ with
      | failure e => rw [hsp] at h; exact absurd h (by simp)
      | success pr =>
        rw [hsp] at h
        dsimp only at h
        cases h
        exact ⟨pr, rfl, rfl, rfl⟩

/-! Claim theorems. -/

/-- C5: packing the three 32×32 sprites named a, b, c with padding 0 and
maxWidth = maxHeight = 64 succeeds with frames at (0,0), (32,0), (0,32) in
that order (the row wraps before the third sprite since 32+32+32 > 64), and
the computed atlas width and height both equal 64. -/
theorem shelfPack_scenarioA :
    ∃ r : PackingResult,
      shelfPack scenarioASprites ⟨0, 64, 64⟩ = .success r ∧
      r.frames = [⟨"a", 0, 0, 32, 32⟩, ⟨"b", 32, 0, 32, 32⟩, ⟨"c", 0, 32, 32, 32⟩] ∧
      r.width = 64 ∧ r.height = 64 :=
  ⟨⟨[⟨"a", 0, 0, 32, 32⟩, ⟨"b", 32, 0, 32, 32⟩, ⟨"c", 0, 32, 32, 32⟩], 64, 64,
    sortByName scenarioASprites⟩, by rfl, rfl, rfl, rfl⟩

/-- C3: for every sprite list with positive dimensions and options with
nonnegative padding, all pairs of distinct frames of a successful `shelfPack`
run occupy disjoint half-open pixel rectangles. -/
theorem shelfPack_frames_disjoint (S : List SpriteInput) (o : PackingOptions)
    (hdims : ∀ s ∈ S, 0 < s.width ∧ 0 < s.height) (hpad : 0 ≤ o.padding)
    {r : PackingResult} (hpack : shelfPack S o = .success r) :
    r.frames.Pairwise
      (fun f g => ∀ px py : Int, ¬ (InFrame f px py ∧ InFrame g px py)) := by
  by_cases hne : S = []
  · subst hne
    have hpack' : ShelfResult.success ⟨[], 0, 0, []⟩ = ShelfResult.success r := hpack
    cases hpack'
    exact List.Pairwise.nil
  · obtain ⟨st, hloop, hfr, -, -, -⟩ := shelfPack_success_elim hpack hne
    have hdims' : ∀ s ∈ sortByName S, 0 < s.width ∧ 0 < s.height := fun s hs =>
      hdims s ((sortByName_perm S).mem_iff.mp hs)
    have hinv := shelfLoop_inv hpad hloop hdims'
      (shelfInv_init o.padding o.maxWidth o.maxHeight)
    rw [hfr]
    exact hinv.disj.imp (fun h px py => h.not_both px py)

theorem shelfPack_frames_disjoint_witness :
    List.Pairwise (fun f g => ∀ px py : Int, ¬ (InFrame f px py ∧ InFrame g px py))
      [Frame.mk "a" 0 0 32 32, ⟨"b", 32, 0, 32, 32⟩, ⟨"c", 0, 32, 32, 32⟩] :=
  shelfPack_frames_disjoint scenarioASprites ⟨0, 64, 64⟩ (by decide) (by decide)
    (r := ⟨[⟨"a", 0, 0, 32, 32⟩, ⟨"b", 32, 0, 32, 32⟩, ⟨"c", 0, 32, 32, 32⟩], 64, 64,
      sortByName scenarioASprites⟩) (by rfl)

/-- C2: every frame of a successful `packAtlas` run lies inside the manifest's
`meta.size` box, for both values of `powerOfTwo`; the frames are exactly the
shelf algorithm's frames (no rescaling), and the final size bounds the
algorithm's computed size since power-of-two rounding only grows. -/
theorem packAtlas_bounds (S : List SpriteInput) (opts : PackerOptions)
    (hpad : 0 ≤ opts.padding) {canvas : Surface} {md : AtlasMetadata}
    (hpack : packAtlas S opts = .success canvas md) :
    (∀ f ∈ md.frames, f.x + f.w ≤ md.meta.size.w ∧ f.y + f.h ≤ md.meta.size.h) ∧
    ∃ pr : PackingResult,
      shelfPack S ⟨opts.padding, opts.maxAtlasSize, opts.maxAtlasSize⟩ = .success pr ∧
      md.frames = pr.frames ∧
      pr.width ≤ md.meta.size.w ∧ pr.height ≤ md.meta.size.h := by
  obtain ⟨hne, -, pr, hsp, hmd, -⟩ := packAtlas_success_elim hpack
  obtain ⟨st, hloop, hfr, hw, hh, -⟩ := shelfPack_success_elim hsp hne
  have hbinv : BoundsInv st := shelfLoop_boundsInv hpad hloop (fun f hf => absurd hf (by simp))
  have hwle : pr.width ≤ md.meta.size.w := by
    rw [hmd]
    dsimp only
    split
    · exact le_nextPowerOfTwo pr.width
    · exact le_refl pr.width
  have hhle : pr.height ≤ md.meta.size.h := by
    rw [hmd]
    dsimp only
    split
    · exact le_nextPowerOfTwo pr.height
    · exact le_refl pr.height
  have hfreq : md.frames = pr.frames := by rw [hmd]
  refine ⟨?_, pr, hsp, hfreq, hwle, hhle⟩
  intro f hf
  rw [hfreq, hfr] at hf
  have := hbinv f hf
  rw [hw] at hwle
  rw [hh] at hhle
  omega

theorem packAtlas_bounds_witness :
    ∃ (canvas : Surface) (md : AtlasMetadata),
      packAtlas scenarioASprites ⟨0, 64, false⟩ = .success canvas md ∧
      ∀ f ∈ md.frames, f.x + f.w ≤ md.meta.size.w ∧ f.y + f.h ≤ md.meta.size.h := by
  refine ⟨_, _, rfl, ?_⟩
  exact (packAtlas_bounds scenarioASprites ⟨0, 64, false⟩ (by decide) rfl).1

/-- C10: on success, the shelf algorithm's computed width and height stay
within `maxWidth`/`maxHeight` (for the constraints domain of the data model);
the bound applies before power-of-two rounding, which can exceed
`maxAtlasSize`, as the last conjunct exhibits. -/
theorem shelfPack_within_max (S : List SpriteInput) (o : PackingOptions)
    (hdims : ∀ s ∈ S, 0 < s.width ∧ 0 < s.height) (hvalid : ValidConstraints o)
    {r : PackingResult} (hpack : shelfPack S o = .success r) :
    (r.width ≤ o.maxWidth ∧ r.height ≤ o.maxHeight) ∧
    ∃ (c : Surface) (m : AtlasMetadata),
      packAtlas [⟨"p", ⟨33, 33, fun _ _ => 1⟩, 33, 33⟩] ⟨0, 33, true⟩ = .success c m ∧
      33 < m.meta.size.w ∧ 33 < m.meta.size.h := by
  obtain ⟨hpad, hmw, hmh⟩ := hvalid
  constructor
  · by_cases hne : S = []
    · subst hne
      have hpack' : ShelfResult.success ⟨[], 0, 0, []⟩ = ShelfResult.success r := hpack
      cases hpack'
      refine ⟨?_, ?_⟩
      · show (0 : Int) ≤ o.maxWidth
        omega
      · show (0 : Int) ≤ o.maxHeight
        omega
    · obtain ⟨st, hloop, -, hw, hh, -⟩ := shelfPack_success_elim hpack hne
      have hdims' : ∀ s ∈ sortByName S, 0 < s.width ∧ 0 < s.height := fun s hs =>
        hdims s ((sortByName_perm S).mem_iff.mp hs)
      have hinv := shelfLoop_inv hpad hloop hdims'
        (shelfInv_init o.padding o.maxWidth o.maxHeight)
      have hsne : sortByName S ≠ [] := by
        intro habs
        apply hne
        have hlen := (sortByName_perm S).length_eq
        rw [habs] at hlen
        exact List.length_eq_zero.mp hlen.symm
      obtain ⟨new, hfr, hmatch⟩ := shelfLoop_frames hloop
      have hfne : st.frames ≠ [] := by
        rw [hfr]
        simp only [List.nil_append]
        intro habs
        have hlen := hmatch.length_eq
        rw [habs] at hlen
        exact hsne (List.length_eq_zero.mp hlen.symm)
      rcases hinv.cap with ⟨habs, -⟩ | ⟨hcw, hch⟩
      · exact absurd habs hfne
      · rw [hw, hh]
        exact ⟨hcw, hch⟩
  · refine ⟨_, _, rfl, by decide, by decide⟩

theorem shelfPack_within_max_witness :
    ∃ r : PackingResult, shelfPack scenarioASprites ⟨0, 64, 64⟩ = .success r ∧
      r.width ≤ 64 ∧ r.height ≤ 64 := by
  refine ⟨_, rfl, ?_⟩
  exact (shelfPack_within_max scenarioASprites ⟨0, 64, 64⟩ (by decide)
    ⟨by decide, by decide, by decide⟩ rfl).1

theorem frames_pairwise_nameLe {new : List Frame} {l : List SpriteInput}
    (hf : List.Forall₂ frameMatches new l) (hs : l.Pairwise nameLe) :
    new.Pairwise (fun f g => f.name.data ≤ g.name.data) := by
  rw [List.pairwise_iff_get] at hs ⊢
  intro i j hij
  have hlen := hf.length_eq
  have hi' : (i : Nat) < l.length := by omega
  have hj' : (j : Nat) < l.length := by omega
  have h1 := hf.get i.isLt hi'
  have h2 := hf.get j.isLt hj'
  have := hs ⟨i, hi'⟩ ⟨j, hj'⟩ (by simpa using hij)
  unfold nameLe at this
  rw [h1.1, h2.1]
  exact this

/-- C4: `shelfPack` is order-independent for inputs with pairwise-distinct
names: any permutation of the sprite list yields the identical result
(outcome, frames, dimensions and sorted sprite order), and successful frame
lists come out sorted ascending by name. -/
theorem shelfPack_order_independent (S T : List SpriteInput) (o : PackingOptions)
    (hperm : S.Perm T) (hnames : (S.map SpriteInput.name).Nodup) :
    shelfPack T o = shelfPack S o ∧
    ∀ r : PackingResult, shelfPack S o = .success r →
      r.frames.Pairwise (fun f g => f.name.data ≤ g.name.data) := by
  constructor
  · unfold shelfPack
    rw [hperm.length_eq.symm, sortByName_eq_of_perm hperm hnames]
  · intro r hr
    by_cases hne : S = []
    · subst hne
      have hr' : ShelfResult.success ⟨[], 0, 0, []⟩ = ShelfResult.success r := hr
      cases hr'
      exact List.Pairwise.nil
    · obtain ⟨st, hloop, hfr, -, -, -⟩ := shelfPack_success_elim hr hne
      obtain ⟨new, hfr', hmatch⟩ := shelfLoop_frames hloop
      rw [hfr, hfr']
      simp only [List.nil_append]
      exact frames_pairwise_nameLe hmatch (sortByName_sorted S)

theorem shelfPack_order_independent_witness :
    shelfPack [wSpriteB, wSpriteA] ⟨1, 64, 64⟩ = shelfPack [wSpriteA, wSpriteB] ⟨1, 64, 64⟩ :=
  (shelfPack_order_independent [wSpriteA, wSpriteB] [wSpriteB, wSpriteA] ⟨1, 64, 64⟩
    (List.Perm.swap wSpriteB wSpriteA []) (by decide)).1

/-- C6 counterexample: `cexSprites` contains an oversized sprite (z, 100×100
with maxWidth = maxHeight = 64 and padding 0), yet `shelfPack` fails with the
capacity message, which is not the oversized-sprite message and names no
sprite — refuting the claim that the error always names the oversized
sprite. -/
theorem shelfPack_oversized_cex :
    (∃ s ∈ cexSprites, s.width + 0 * 2 > 64 ∨ s.height + 0 * 2 > 64) ∧
    shelfPack cexSprites ⟨0, 64, 64⟩ =
      .failure "Atlas size (64x64) is too small to fit all sprites. Try increasing the max size." ∧
    ∀ s ∈ cexSprites, tooLargeMsg s 64 64 ≠
      "Atlas size (64x64) is too small to fit all sprites. Try increasing the max size." :=
  ⟨by decide, by rfl, by decide⟩

/-- C6 amended: when some sprite is oversized, `shelfPack` always fails (and a
failure carries no frames); the oversized-sprite message naming the sprite
and its dimensions is produced when the loop reaches the oversized sprite
first — in particular when it comes first in sorted order, and in the
single-sprite Scenario B, where `packAtlas` also propagates the error
verbatim as it does for every `shelfPack` failure. -/
theorem shelfPack_oversized_failure (S : List SpriteInput) (o : PackingOptions)
    (hex : ∃ s ∈ S, s.width + o.padding * 2 > o.maxWidth ∨
      s.height + o.padding * 2 > o.maxHeight) :
    (∃ e, shelfPack S o = .failure e) ∧
    (∀ s rest, sortByName S = s :: rest →
      (s.width + o.padding * 2 > o.maxWidth ∨ s.height + o.padding * 2 > o.maxHeight) →
      shelfPack S o = .failure (tooLargeMsg s o.maxWidth o.maxHeight)) ∧
    (∀ (S' : List SpriteInput) (opts : PackerOptions) (e : String), S' ≠ [] →
      32 ≤ opts.maxAtlasSize →
      shelfPack S' ⟨opts.padding, opts.maxAtlasSize, opts.maxAtlasSize⟩ = .failure e →
      packAtlas S' opts = .failure e) ∧
    packAtlas [bigSprite] { maxAtlasSize := 64 } =
      .failure "Sprite \"big\" (100x100) is too large for the atlas (max: 64x64)" := by
  have hne : S ≠ [] := by
    rcases hex with ⟨s, hs, -⟩
    exact fun habs => by rw [habs] at hs; exact absurd hs (List.not_mem_nil s)
  refine ⟨?_, ?_, ?_, by rfl⟩
  · have hex' : ∃ s ∈ sortByName S, s.width + o.padding * 2 > o.maxWidth ∨
        s.height + o.padding * 2 > o.maxHeight := by
      rcases hex with ⟨s, hs, hov⟩
      exact ⟨s, (sortByName_perm S).mem_iff.mpr hs, hov⟩
    obtain ⟨e, herr⟩ := shelfLoop_err_of_mem
      ⟨[], o.padding, o.padding, 0, 0⟩ hex'
    refine ⟨e, ?_⟩
    unfold shelfPack
    rw [if_neg (by simpa using hne)]
    dsimp only
    rw [herr]
  · intro s rest hsorted hover
    unfold shelfPack
    rw [if_neg (by simpa using hne)]
    dsimp only
    rw [hsorted, shelfLoop, shelfStep_err_over hover]
  · intro S' opts e hne' h32 hfail
    unfold packAtlas
    rw [if_neg (by simpa using hne'), if_neg (by omega)]
    dsimp only
    rw [hfail]

theorem shelfPack_oversized_failure_witness :
    ∃ e, shelfPack [bigSprite] ⟨1, 64, 64⟩ = .failure e :=
  (shelfPack_oversized_failure [bigSprite] ⟨1, 64, 64⟩ (by decide)).1

/-- C7 counterexample: with `frames` present but equal to the number 1
(truthy, not a list), the unpacker's entry does not return the typed
"invalid metadata" failure — it reaches the `for...of` iteration over a
non-iterable value, which throws. -/
theorem unpackAtlas_nonlist_frames_throws :
    unpackAtlasEntry (some (createCanvas 60 60)) (.obj [("frames", .num 1)]) =
      .thrown "TypeError: metadata.frames is not iterable" ∧
    unpackAtlasEntry (some (createCanvas 60 60)) (.obj [("frames", .num 1)]) ≠
      .failure "Invalid metadata: missing frames array." :=
  ⟨by rfl, fun h => UnpackEntry.noConfusion h⟩

/-- C7 amended: for every surface, the unpacker returns the typed
"invalid metadata" failure whenever the metadata value itself or its
`frames` field is falsy — in particular whenever `frames` is missing.  The
check does not reject truthy non-list `frames` values: a non-iterable one
(here the number 1) reaches the `for...of` and throws a `TypeError`, while a
string is iterated per character, so neither yields the typed
invalid-metadata failure. -/
theorem unpackAtlas_invalid_metadata (surf : Surface) (md : JSVal)
    (h : truthy md = false ∨ truthy (memberOf md "frames") = false) :
    unpackAtlasEntry (some surf) md = .failure "Invalid metadata: missing frames array." ∧
    unpackAtlasEntry (some surf) (.obj [("frames", .num 1)]) =
      .thrown "TypeError: metadata.frames is not iterable" ∧
    unpackAtlasEntry (some surf) (.obj [("frames", .str "ab")]) = .iterateChars "ab" := by
  refine ⟨?_, by rfl, by rfl⟩
  unfold unpackAtlasEntry
  dsimp only
  rcases h with h | h
  · rw [if_pos (Or.inl (by simp [h]))]
  · rw [if_pos (Or.inr (by simp [h]))]

theorem unpackAtlas_invalid_metadata_witness :
    unpackAtlasEntry (some (createCanvas 8 8)) (.obj [("meta", .obj [])]) =
      .failure "Invalid metadata: missing frames array." :=
  (unpackAtlas_invalid_metadata (createCanvas 8 8) (.obj [("meta", .obj [])])
    (Or.inr (by decide))).1

/-- C8: whenever the manifest's frame list contains an offending frame
(negative position or extending beyond the surface), `unpackAtlas` fails with
the error of the first offending frame — the negative-position message or the
out-of-bounds message carrying the frame's coordinates and the surface size —
and performs no extraction at all (no success value, hence no extracted
sprite list, is ever produced); Scenario D (frame 50,50,20x20 against a
60×60 surface) is the last conjunct. -/
theorem unpackAtlas_bounds_fail_fast (atlas : Surface) (md : AtlasMetadata) (f : Frame)
    (hfind : md.frames.find? (offends atlas.w atlas.h) = some f) :
    unpackAtlas (some atlas) md = .failure (offendError atlas.w atlas.h f) ∧
    (∀ es : List ExtractedSprite, unpackAtlas (some atlas) md ≠ .success es) ∧
    unpackAtlas (some (createCanvas 60 60))
        ⟨[⟨"s", 50, 50, 20, 20⟩], ⟨"SpriteAtlasTool", "1.0", ⟨60, 60⟩⟩⟩ =
      .failure "Frame \"s\" extends beyond atlas bounds. Frame: (50, 50, 20x20), Atlas: 60x60" := by
  have h1 := unpackAtlas_failure_of_find hfind
  refine ⟨h1, ?_, by rfl⟩
  intro es habs
  rw [h1] at habs
  exact UnpackResult.noConfusion habs

theorem unpackAtlas_bounds_fail_fast_witness :
    unpackAtlas (some (createCanvas 60 60))
        ⟨[⟨"s", 50, 50, 20, 20⟩], ⟨"SpriteAtlasTool", "1.0", ⟨60, 60⟩⟩⟩ =
      .failure (offendError 60 60 ⟨"s", 50, 50, 20, 20⟩) :=
  (unpackAtlas_bounds_fail_fast (createCanvas 60 60)
    ⟨[⟨"s", 50, 50, 20, 20⟩], ⟨"SpriteAtlasTool", "1.0", ⟨60, 60⟩⟩⟩
    ⟨"s", 50, 50, 20, 20⟩ (by decide)).1

/-- C9 counterexample: on the JSON-reachable manifest with `frames: [null]`
and an object `meta`, `validateMetadata` does not return the typed
"missing name" failure the claim demands for the first ill-typed frame — the
member read `frame.name` on the null element throws a `TypeError` that
escapes the function. -/
theorem validateMetadata_null_frame_throws :
    validateMetadata (.obj [("frames", .arr [.null]), ("meta", .obj [])]) =
      .thrown "TypeError: Cannot read properties of null" ∧
    validateMetadata (.obj [("frames", .arr [.null]), ("meta", .obj [])]) ≠
      .invalid "Frame 0 missing \"name\"" :=
  ⟨by rfl, fun h => ValidationOutcome.noConfusion h⟩

/-- C9 amended: the manifest validator's check order and outcomes —
non-object root first, then non-array `frames`, then missing/non-object
`meta` (so a manifest with well-formed frames but no `meta` fails with the
meta error); then, for the first offending frame element: a `null` or
`undefined` element makes the `frame.name` member read throw a `TypeError`
instead of returning a typed failure, and any other offending element yields
the error of its first ill-typed field (name as string before x/y numbers
before w/h numbers); an object root with an empty frames array and an object
`meta` is accepted. -/
theorem validateMetadata_contract (md : JSVal) :
    (¬ (truthy md = true ∧ typeofVal md = "object") →
      validateMetadata md = .invalid "Metadata must be an object") ∧
    (truthy md = true → typeofVal md = "object" →
      isArrayVal (memberOf md "frames") = false →
      validateMetadata md = .invalid "Metadata must have a \"frames\" array") ∧
    (truthy md = true → typeofVal md = "object" →
      (∀ fs, memberOf md "frames" = .arr fs →
        ¬ (truthy (memberOf md "meta") = true ∧ typeofVal (memberOf md "meta") = "object") →
        validateMetadata md = .invalid "Metadata must have a \"meta\" object")) ∧
    (truthy md = true → typeofVal md = "object" →
      truthy (memberOf md "meta") = true → typeofVal (memberOf md "meta") = "object" →
      (∀ fs, memberOf md "frames" = .arr fs →
        ∀ (j : Nat) (hj : j < fs.length),
          (∀ m (hm : m < j), frameWellTyped (fs.get ⟨m, Nat.lt_trans hm hj⟩)) →
          nullish (fs.get ⟨j, hj⟩) = false →
          ¬ frameWellTyped (fs.get ⟨j, hj⟩) →
          validateMetadata md = .invalid (frameErrorMsg j (fs.get ⟨j, hj⟩)))) ∧
    (truthy md = true → typeofVal md = "object" →
      truthy (memberOf md "meta") = true → typeofVal (memberOf md "meta") = "object" →
      (∀ fs, memberOf md "frames" = .arr fs →
        ∀ (j : Nat) (hj : j < fs.length),
          (∀ m (hm : m < j), frameWellTyped (fs.get ⟨m, Nat.lt_trans hm hj⟩)) →
          nullish (fs.get ⟨j, hj⟩) = true →
          validateMetadata md = .thrown (typeErrorMsg (fs.get ⟨j, hj⟩)))) ∧
    (truthy md = true → typeofVal md = "object" →
      truthy (memberOf md "meta") = true → typeofVal (memberOf md "meta") = "object" →
      memberOf md "frames" = .arr [] →
      validateMetadata md = .valid) := by
  refine ⟨?_, ?_, ?_, ?_, ?_, ?_⟩
  · intro hroot
    unfold validateMetadata
    rw [if_pos (by tauto)]
  · intro h1 h2 hfr
    unfold validateMetadata
    rw [if_neg (by simp [h1, h2]), if_pos (by simp [hfr])]
  · intro h1 h2 fs hfs hmeta
    unfold validateMetadata
    rw [if_neg (by simp [h1, h2]), if_neg (by simp [hfs, isArrayVal]),
      if_pos (by tauto)]
  · intro h1 h2 h3 h4 fs hfs j hj hgood hnn hbad
    unfold validateMetadata
    rw [if_neg (by simp [h1, h2]), if_neg (by simp [hfs, isArrayVal]),
      if_neg (by simp [h3, h4]), hfs]
    dsimp only
    have := checkFramesFrom_first_bad 0 hj hgood hnn hbad
    rw [this, Nat.zero_add]
  · intro h1 h2 h3 h4 fs hfs j hj hgood hnull
    unfold validateMetadata
    rw [if_neg (by simp [h1, h2]), if_neg (by simp [hfs, isArrayVal]),
      if_neg (by simp [h3, h4]), hfs]
    dsimp only
    exact checkFramesFrom_first_null 0 hj hgood hnull
  · intro h1 h2 h3 h4 hfs
    unfold validateMetadata
    rw [if_neg (by simp [h1, h2]), if_neg (by simp [hfs, isArrayVal]),
      if_neg (by simp [h3, h4]), hfs]
    dsimp only
    exact checkFramesFrom_valid 0 (by simp)

theorem validateMetadata_contract_witness :
    validateMetadata (.obj [("frames", .arr [])]) =
      .invalid "Metadata must have a \"meta\" object" :=
  (validateMetadata_contract (.obj [("frames", .arr [])])).2.2.1 (by decide) (by decide)
    [] (by rfl) (by decide)

/-- C1: pack/unpack round-trip — for sprite lists with pairwise-distinct
names, positive dimensions and loader-consistent image sizes, and options
with nonnegative padding, whenever `packAtlas` succeeds, `unpackAtlas` on the
returned surface and manifest succeeds and yields exactly one extracted
sprite per input sprite (a permutation correspondence) matching it in name,
width, height and pixel content. -/
theorem packAtlas_unpackAtlas_roundtrip (S : List SpriteInput) (opts : PackerOptions)
    (hnames : (S.map SpriteInput.name).Nodup)
    (hdims : ∀ s ∈ S, 0 < s.width ∧ 0 < s.height)
    (himg : ∀ s ∈ S, s.image.w = s.width ∧ s.image.h = s.height)
    (hpad : 0 ≤ opts.padding)
    {canvas : Surface} {md : AtlasMetadata}
    (hpack : packAtlas S opts = .success canvas md) :
    ∃ (es : List ExtractedSprite) (S2 : List SpriteInput),
      unpackAtlas (some canvas) md = .success es ∧
      S.Perm S2 ∧ List.Forall₂ SpriteMatch es S2 := by
  obtain ⟨hne, -, pr, hsp, hmd, hcv⟩ := packAtlas_success_elim hpack
  obtain ⟨st, hloop, hfrpr, hwpr, hhpr, hsppr⟩ := shelfPack_success_elim hsp hne
  subst hmd
  subst hcv
  rw [hsppr]
  set fw := if opts.powerOfTwo then nextPowerOfTwo pr.width else pr.width with hfwdef
  set fh := if opts.powerOfTwo then nextPowerOfTwo pr.height else pr.height with hfhdef
  set base := createCanvas fw fh with hbase
  set atlas := drawFrames base pr.frames (sortByName S) with hatlas
  -- sorted-list facts
  have hsne : sortByName S ≠ [] := by
    intro habs
    apply hne
    have hlen := (sortByName_perm S).length_eq
    rw [habs] at hlen
    exact List.length_eq_zero.mp hlen.symm
  have hdims' : ∀ s ∈ sortByName S, 0 < s.width ∧ 0 < s.height := fun s hs =>
    hdims s ((sortByName_perm S).mem_iff.mp hs)
  have himg' : ∀ s ∈ sortByName S, s.image.w = s.width ∧ s.image.h = s.height := fun s hs =>
    himg s ((sortByName_perm S).mem_iff.mp hs)
  have hinv := shelfLoop_inv hpad hloop hdims'
    (shelfInv_init opts.padding opts.maxAtlasSize opts.maxAtlasSize)
  obtain ⟨new, hnew, hmatch0⟩ := shelfLoop_frames hloop
  have hmatch : List.Forall₂ frameMatches pr.frames (sortByName S) := by
    rw [hfrpr, hnew]
    simpa using hmatch0
  have hlen : pr.frames.length = (sortByName S).length := hmatch.length_eq
  have hfne : pr.frames.length ≠ 0 := by
    intro habs
    exact hsne (List.length_eq_zero.mp (by omega))
  have hdisj : pr.frames.Pairwise FrameDisjoint := by
    rw [hfrpr]
    exact hinv.disj
  have hfid : List.Forall₂ frameImageDims pr.frames (sortByName S) := by
    refine List.forall₂_of_length_eq_of_get hlen ?_
    intro i h₁ h₂
    have hm := hmatch.get h₁ h₂
    have himgs := himg' _ (List.get_mem (sortByName S) i h₂)
    exact ⟨by rw [hm.2.1]; exact himgs.1.symm, by rw [hm.2.2]; exact himgs.2.symm⟩
  -- the surface dimensions are at least the packed dimensions
  have hfwge : pr.width ≤ fw := by
    rw [hfwdef]
    split
    · exact le_nextPowerOfTwo pr.width
    · exact le_refl pr.width
  have hfhge : pr.height ≤ fh := by
    rw [hfhdef]
    split
    · exact le_nextPowerOfTwo pr.height
    · exact le_refl pr.height
  have hcw : atlas.w = fw := (drawFrames_dims pr.frames (sortByName S) base).1
  have hch : atlas.h = fh := (drawFrames_dims pr.frames (sortByName S) base).2
  -- every emitted frame passes the unpacker's validation
  have hok : ∀ f ∈ pr.frames, frameOk atlas.w atlas.h f := by
    intro f hf
    have hf' : f ∈ st.frames := by rw [← hfrpr]; exact hf
    have h1 := hinv.pos f hf'
    have h2 := hinv.bounds f hf'
    have hwa : st.atlasWidth = pr.width := hwpr.symm
    have hha : st.currentY + st.rowHeight = pr.height := hhpr.symm
    refine ⟨h1.1, h1.2, ?_, ?_⟩
    · rw [hcw]; omega
    · rw [hch]; omega
  refine ⟨pr.frames.map (extractFrame atlas), sortByName S, ?_,
    (sortByName_perm S).symm, ?_⟩
  · unfold unpackAtlas
    dsimp only
    rw [if_neg hfne, validateFrames_none hok]
  · refine List.forall₂_of_length_eq_of_get (by simpa using hlen) ?_
    intro i h₁ h₂
    have hif : i < pr.frames.length := by simpa using h₁
    rw [List.get_map]
    have hm := hmatch.get hif h₂
    have himgs := himg' _ (List.get_mem (sortByName S) i h₂)
    refine ⟨hm.1, hm.2.1, hm.2.2, ?_⟩
    intro a b ha0 haw hb0 hbh
    have hfw' : (pr.frames.get ⟨i, hif⟩).w = ((sortByName S).get ⟨i, h₂⟩).width := hm.2.1
    have hfh' : (pr.frames.get ⟨i, hif⟩).h = ((sortByName S).get ⟨i, h₂⟩).height := hm.2.2
    show (copyRegion atlas (pr.frames.get ⟨i, hif⟩).x (pr.frames.get ⟨i, hif⟩).y
      (pr.frames.get ⟨i, hif⟩).w (pr.frames.get ⟨i, hif⟩).h).pix a b =
      ((sortByName S).get ⟨i, h₂⟩).image.pix a b
    unfold copyRegion
    dsimp only
    rw [if_pos ⟨ha0, by omega, hb0, by omega⟩]
    exact drawFrames_pix_get base hfid hdisj i hif h₂ a b ha0 (by omega) hb0 (by omega)

theorem packAtlas_unpackAtlas_roundtrip_witness :
    ∃ (canvas : Surface) (md : AtlasMetadata) (es : List ExtractedSprite)
      (S2 : List SpriteInput),
      packAtlas [wSpriteB, wSpriteA] ⟨1, 64, false⟩ = .success canvas md ∧
      unpackAtlas (some canvas) md = .success es ∧
      [wSpriteB, wSpriteA].Perm S2 ∧ List.Forall₂ SpriteMatch es S2 := by
  obtain ⟨es, S2, h1, h2, h3⟩ := packAtlas_unpackAtlas_roundtrip [wSpriteB, wSpriteA]
    ⟨1, 64, false⟩ (by decide) (by decide) (by decide) (by decide) rfl
  exact ⟨_, _, es, S2, rfl, h1, h2, h3⟩

end SpriteAtlas
